import Mathlib

/-
  Verification of the canvas state engine of the scrap-paper sketching
  application (source: src/unnamed/part_006, the CanvasWorkspace component).

  The engine is embedded shallowly: the pixel buffer is a list of rows,
  each row a list of abstract color values; every handler of the source
  becomes a pure function on an explicit workspace state, modelling the
  settled state after all scheduled timeouts and callbacks of that handler
  have run.  Asynchronous outcomes (blob encoding, the persistence write,
  image rehydration) are passed in as explicit booleans.
-/

namespace ScrapPaper

/-- Abstract pixel value (an opaque RGBA color; the canvas is always fully
opaque, so compositing a draw is modelled as overwriting). -/
abbrev Color := Nat

/-- One full-width row of pixels. -/
abbrev Row := List Color

/-- Source constant INITIAL_CANVAS_HEIGHT (part_006 line 7). -/
def INITIAL_CANVAS_HEIGHT : Nat := 1200

/-- Source constant CANVAS_WIDTH (part_006 line 8). -/
def CANVAS_WIDTH : Nat := 800

/-- Source constant CANVAS_EXTEND_HEIGHT (part_006 line 9); the spec calls it EXTEND_STEP. -/
def CANVAS_EXTEND_HEIGHT : Nat := 400

/-- Source constant MAX_HISTORY (part_006 line 10). -/
def MAX_HISTORY : Nat := 20

/-- The literal 800 in the post-cut auto-extend check (part_006 line 383);
the spec calls it MIN_VIABLE_HEIGHT. -/
def MIN_VIABLE_HEIGHT : Nat := 800

/-- The literal 200 in the bottom-margin check of handlePointerMove
(part_006 line 281); the spec calls it EXTEND_MARGIN. -/
def EXTEND_MARGIN : Nat := 200

/-- The literal 50 in the scissor-rail clamp (part_006 line 940);
the spec calls it MIN_MARGIN. -/
def MIN_MARGIN : Nat := 50

/-- Pixel value of a freshly created canvas (transparent black); a canvas
resize destructively resets every pixel to this value. -/
def transparent : Color := 0

/-- A full-width row of a single color, as produced by fillRect over the
whole canvas width. -/
def bgRow (bg : Color) : Row := List.replicate CANVAS_WIDTH bg

/-- CanvasSnapshot (part_006 lines 38-41): an immutable full-buffer capture. -/
structure CanvasSnapshot where
  imageData : List Row
  height : Nat
deriving DecidableEq

/-- Local wall-clock time at second granularity, the input of
generateFilename (getFullYear / getMonth+1 / getDate / getHours /
getMinutes / getSeconds). `month` and `day` are 1-based as produced
by the source (getMonth() + 1, getDate()). -/
structure DateTime where
  year : Nat
  month : Nat
  day : Nat
  hour : Nat
  minute : Nat
  second : Nat
deriving DecidableEq

/-- String.padStart(2, '0') of the source: left-pad with zeros to length 2. -/
def padStart2 (s : String) : String :=
  if s.length < 2 then String.mk (List.replicate (2 - s.length) '0') ++ s else s

/-- generateFilename (part_006 lines 43-46): the timestamped name of a cut. -/
def generateFilename (t : DateTime) : String :=
  toString t.year ++ "-" ++ padStart2 (toString t.month) ++ "-" ++
    padStart2 (toString t.day) ++ "_" ++ padStart2 (toString t.hour) ++
    padStart2 (toString t.minute) ++ padStart2 (toString t.second) ++ ".png"

/-- Modelled from the spec: the constant CURRENT_CANVAS_FILENAME is imported
from ../constants, a module absent from src/; section 6 of the spec says the
working-canvas slot uses one fixed constant name distinct from the
timestamp pattern. -/
def CURRENT_CANVAS_FILENAME : String := "current-canvas.png"

/-- The persistence sink: named images, most recent write first.  A write
shadows any older entry of the same name, so a second write to a name
overwrites the first as far as any read can observe. -/
abbrev Sink := List (String × List Row)

/-- writeNamedImage of the sink interface: record `content` under `name`. -/
def writeNamedImage (name : String) (content : List Row) (sink : Sink) : Sink :=
  (name, content) :: sink

/-- readNamedImage of the sink interface: the most recent content written
under `name`, if any. -/
def lookupImage (name : String) (sink : Sink) : Option (List Row) :=
  (sink.find? (fun e => e.1 = name)).map (fun e => e.2)

/-- The workspace state of CanvasWorkspace: the canvas pixel rows, the
undo history, the viewport state (zoom, canvasOffsetY), the scissor hover,
the ambient flags (isDrawing, isExtending, needsExtension), the pending
autosave timer, the availability of a directory handle, and the files
written through it.  The canvasHeight state of the source always tracks
the canvas height, which is `rows.length` here. -/
structure WS where
  rows : List Row
  history : List CanvasSnapshot
  canUndo : Bool
  zoom : ℚ
  canvasOffsetY : Nat
  hoveredScissorY : Option Nat
  isDrawing : Bool
  isExtending : Bool
  needsExtension : Bool
  pendingAutosave : Bool
  hasDir : Bool
  savedFiles : Sink
deriving DecidableEq

/-- The canvasHeight state, kept in sync with the canvas by the source. -/
def WS.canvasHeight (ws : WS) : Nat := ws.rows.length

/-- ctx.getImageData(0, y0, CANVAS_WIDTH, h): an independent copy of rows
[y0, y0+h) of the buffer. -/
def getImageData (y0 h : Nat) (rows : List Row) : List Row :=
  (rows.drop y0).take h

/-- ctx.putImageData(src, 0, y0): overwrite rows starting at y0, clipped to
the destination. -/
def writeRows (dst : List Row) (y0 : Nat) (src : List Row) : List Row :=
  dst.take y0 ++ src.take (dst.length - y0) ++ dst.drop (y0 + src.length)

/-- Changing the canvas height attribute destructively resets every pixel. -/
def resizeCanvas (newH : Nat) (_rows : List Row) : List Row :=
  List.replicate newH (List.replicate CANVAS_WIDTH transparent)

/-- The snapshot captureSnapshot takes of a buffer. -/
def mkSnapshot (rs : List Row) : CanvasSnapshot :=
  { imageData := getImageData 0 rs.length rs, height := rs.length }

/-- History push with eviction (part_006 lines 102-105): append, then
shift the oldest entry off when MAX_HISTORY is exceeded. -/
def pushHistory (s : CanvasSnapshot) (h : List CanvasSnapshot) : List CanvasSnapshot :=
  if MAX_HISTORY < (h ++ [s]).length then (h ++ [s]).drop 1 else h ++ [s]

/-- captureSnapshot (part_006 lines 92-111): push a full capture of the
current buffer onto the history. -/
def captureSnapshot (ws : WS) : WS :=
  let updatedHistory := pushHistory (mkSnapshot ws.rows) ws.history
  { ws with history := updatedHistory, canUndo := updatedHistory.length > 0 }

/-- restoreSnapshot (part_006 lines 113-129): if the snapshot height differs
from the canvas height, resize destructively with the background fill
skipped and re-apply the pixels once the resize lands (the pendingRestore
effect); otherwise put the pixels back directly. -/
def restoreSnapshot (s : CanvasSnapshot) (ws : WS) : WS :=
  if ws.canvasHeight ≠ s.height then
    { ws with rows := writeRows (resizeCanvas s.height ws.rows) 0 s.imageData }
  else
    { ws with rows := writeRows ws.rows 0 s.imageData }

/-- scheduleAutoSave (part_006 lines 151-161): arm the debounced autosave
timer, a no-op without a directory handle. -/
def scheduleAutoSave (ws : WS) : WS :=
  if ws.hasDir then { ws with pendingAutosave := true } else ws

/-- handleUndo (part_006 lines 208-219): pop the most recent snapshot,
restore it, and schedule an autosave. -/
def handleUndo (ws : WS) : WS :=
  match ws.history.getLast? with
  | none => ws
  | some s =>
      let ws1 := { ws with history := ws.history.dropLast,
                           canUndo := ws.history.dropLast.length > 0 }
      scheduleAutoSave (restoreSnapshot s ws1)

/-- extendCanvas (part_006 lines 163-201): guarded by isExtending; capture a
snapshot, hold the full current content, grow the canvas by
CANVAS_EXTEND_HEIGHT (a destructive resize re-filled with the background
color), redraw the held content at the origin, clear the guard, and
schedule an autosave.  `canvasOk`, `ctxOk` and `imgOk` select the execution
path: a missing canvas, a missing 2d context inside the deferred callback,
or a failing image rehydration.  This models the invocations whose closure
over canvasHeight agrees with the canvas — the explicit extend button and
the stroke-end trigger, where no resize intervenes between the closure's
render and the call; the post-cut auto-extension instead runs a stale
closure, modelled by extendCanvasStale below. -/
def extendCanvas (bg : Color) (canvasOk ctxOk imgOk : Bool) (ws : WS) : WS :=
  if ws.isExtending then ws
  else if !canvasOk then { ws with isExtending := false }
  else
    let ws1 := captureSnapshot ws
    let currentImageData := ws1.rows
    let newHeight := ws1.canvasHeight + CANVAS_EXTEND_HEIGHT
    if !ctxOk then
      { ws1 with rows := resizeCanvas newHeight ws1.rows, isExtending := false }
    else
      let filled := List.replicate newHeight (bgRow bg)
      if !imgOk then
        { ws1 with rows := filled, isExtending := false }
      else
        scheduleAutoSave
          { ws1 with rows := writeRows filled 0 currentImageData, isExtending := false }

/-- ctx.getImageData(0, 0, CANVAS_WIDTH, h) when h may exceed the canvas
height: pixels outside the canvas read back as transparent black, so the
result is the canvas rows clipped to h and padded with transparent rows up
to height h. -/
def getImageDataPadded (h : Nat) (rows : List Row) : List Row :=
  rows.take h ++
    List.replicate (h - rows.length) (List.replicate CANVAS_WIDTH transparent)

/-- The stale extendCanvas closure the post-cut auto-extension invokes
(part_006 line 385): handleScissorClick captures the extendCanvas and
captureSnapshot bindings of the render at click time, whose canvasHeight is
the pre-cut height `staleH`, and the deferred setTimeout runs them after
the commit has already resized the canvas.  The stale captureSnapshot reads
getImageData(0, 0, W, staleH) over the shorter canvas — a transparent-padded
image recorded at height staleH — and the resize target is
staleH + CANVAS_EXTEND_HEIGHT, not the current height plus the step.  The
isExtending guard and the history are refs, so they are current. -/
def extendCanvasStale (bg : Color) (staleH : Nat) (canvasOk ctxOk imgOk : Bool)
    (ws : WS) : WS :=
  if ws.isExtending then ws
  else if !canvasOk then { ws with isExtending := false }
  else
    let snapshot : CanvasSnapshot :=
      { imageData := getImageDataPadded staleH ws.rows, height := staleH }
    let updatedHistory := pushHistory snapshot ws.history
    let ws1 := { ws with history := updatedHistory,
                         canUndo := updatedHistory.length > 0 }
    let currentImageData := ws1.rows
    let newHeight := staleH + CANVAS_EXTEND_HEIGHT
    if !ctxOk then
      { ws1 with rows := resizeCanvas newHeight ws1.rows, isExtending := false }
    else
      let filled := List.replicate newHeight (bgRow bg)
      if !imgOk then
        { ws1 with rows := filled, isExtending := false }
      else
        scheduleAutoSave
          { ws1 with rows := writeRows filled 0 currentImageData, isExtending := false }

/-- handleClear (part_006 lines 221-236): after the confirm dialog, capture
a snapshot, fill the whole canvas with the background color, drop the
scissor hover and the bottom-margin flag, and schedule an autosave. -/
def handleClear (bg : Color) (confirmed : Bool) (ws : WS) : WS :=
  if !confirmed then ws
  else
    let ws1 := captureSnapshot ws
    scheduleAutoSave
      { ws1 with rows := List.replicate ws1.canvasHeight (bgRow bg),
                 hoveredScissorY := none, needsExtension := false }

/-- handlePointerDown (part_006 lines 238-262): enter the drawing state and
capture a snapshot before the stroke mutates anything. -/
def handlePointerDown (ws : WS) : WS :=
  captureSnapshot { ws with isDrawing := true }

/-- handlePointerMove (part_006 lines 264-284): while drawing, rasterize the
incremental segment (the abstract `rasterize`), and raise the
bottom-margin flag when the transformed pointer row is within
EXTEND_MARGIN of the bottom edge. -/
def handlePointerMove (rasterize : List Row → List Row) (y : ℚ) (ws : WS) : WS :=
  if !ws.isDrawing then ws
  else
    { ws with rows := rasterize ws.rows,
              needsExtension :=
                if (ws.canvasHeight : ℚ) - (EXTEND_MARGIN : ℚ) < y then true
                else ws.needsExtension }

/-- finalizeStroke (part_006 lines 286-296): leave the drawing state; if the
bottom-margin flag is set, clear it and trigger the extension (which itself
schedules the autosave on success), otherwise schedule the autosave
directly. -/
def finalizeStroke (bg : Color) (canvasOk ctxOk imgOk : Bool) (ws : WS) : WS :=
  let ws1 := { ws with isDrawing := false }
  if ws1.needsExtension then
    extendCanvas bg canvasOk ctxOk imgOk { ws1 with needsExtension := false }
  else
    scheduleAutoSave ws1

/-- handlePointerUp (part_006 lines 298-305): release the pointer capture
and finalize the stroke. -/
def handlePointerUp (bg : Color) (canvasOk ctxOk imgOk : Bool) (ws : WS) : WS :=
  finalizeStroke bg canvasOk ctxOk imgOk ws

/-- The canvas wires onPointerLeave to the same handler as onPointerUp
(part_006 line 783). -/
def handlePointerLeave : Color → Bool → Bool → Bool → WS → WS :=
  handlePointerUp

/-- The canvas wires onPointerCancel to the same handler as onPointerUp
(part_006 line 784). -/
def handlePointerCancel : Color → Bool → Bool → Bool → WS → WS :=
  handlePointerUp

/-- The scissor-rail hover clamp (part_006 lines 937-942): clamp the
transformed pointer row into [MIN_MARGIN, canvasHeight - MIN_MARGIN] and
round it. -/
def clampScissorY (h : Nat) (relativeY : ℚ) : Nat :=
  (round (max (MIN_MARGIN : ℚ) (min ((h : ℚ) - (MIN_MARGIN : ℚ)) relativeY))).toNat

/-- The scissor-rail onMouseMove handler: record the clamped hover row. -/
def onScissorRailMouseMove (relativeY : ℚ) (ws : WS) : WS :=
  { ws with hoveredScissorY := some (clampScissorY ws.canvasHeight relativeY) }

/-- The success continuation of the cut (part_006 lines 363-381): clear the
scissor hover, re-read rows [y, H) of the live buffer, resize it down to
H - y (destructive; the height effect and the explicit fillRect re-fill it
with the background color), write the retained rows back at the origin, and
schedule an autosave.  The conditional auto-extension of lines 382-387 is
applied afterwards by handleScissorClick. -/
def cutCommit (bg : Color) (y : Nat) (ws : WS) : WS :=
  let lowerImageData := getImageData y (ws.canvasHeight - y) ws.rows
  let newHeight := ws.canvasHeight - y
  let filled := List.replicate newHeight (bgRow bg)
  scheduleAutoSave
    { ws with hoveredScissorY := none,
              rows := writeRows filled 0 lowerImageData }

/-- The state reached by a cut just after its persistence write succeeded
(part_006 lines 313-361): the pre-write snapshot is on the history, the cut
animation has settled (canvasOffsetY back to 0), and the independent upper
image — rows [0, y) of the buffer — has been written to the sink under the
timestamped name.  The live buffer is still untouched. -/
def cutMidState (t : DateTime) (y : Nat) (ws : WS) : WS :=
  let ws1 := { captureSnapshot ws with canvasOffsetY := 0 }
  { ws1 with savedFiles :=
      writeNamedImage (generateFilename t) (getImageData 0 y ws1.rows) ws1.savedFiles }

/-- handleScissorClick (part_006 lines 307-397): the cut engine.  Requires a
directory handle; captures a snapshot; copies rows [0, y) into an
independent upper image; runs the cut animation (canvasOffsetY settles back
to 0); encodes the upper image (`blobOk`) and writes it to the sink under
the timestamped name (`writeOk`).  Only when the write succeeds does the
commit run; when the remaining height is below MIN_VIABLE_HEIGHT, the
deferred auto-extension then runs the stale extendCanvas closure captured
at click time, whose canvasHeight is the pre-cut height of this state. -/
def handleScissorClick (bg : Color) (t : DateTime) (blobOk writeOk : Bool)
    (canvasOk ctxOk imgOk : Bool) (y : Nat) (ws : WS) : WS :=
  if !ws.hasDir then ws
  else if !blobOk then { captureSnapshot ws with canvasOffsetY := 0 }
  else if !writeOk then { captureSnapshot ws with canvasOffsetY := 0 }
  else
    let ws3 := cutCommit bg y (cutMidState t y ws)
    if ws3.canvasHeight < MIN_VIABLE_HEIGHT then
      extendCanvasStale bg ws.canvasHeight canvasOk ctxOk imgOk ws3
    else ws3

/-- The effect on directoryHandle change (part_006 lines 423-451): cancel
any pending autosave timer, clear the history, disable undo, and draw the
saved working canvas (if present, and if its image decodes) onto the
current buffer at the origin. -/
def directoryChangeEffect (loadOk : Bool) (ws : WS) : WS :=
  let ws1 := { ws with pendingAutosave := false, history := [], canUndo := false }
  if !ws1.hasDir then ws1
  else
    match lookupImage CURRENT_CANVAS_FILENAME ws1.savedFiles with
    | none => ws1
    | some img => if loadOk then { ws1 with rows := writeRows ws1.rows 0 img } else ws1

/-- A two-character decimal rendering of a value below 100. -/
def twoDigits (n : Nat) : String :=
  String.mk [Nat.digitChar (n / 10), Nat.digitChar (n % 10)]

/-- The filename format of section 6 of the spec, following its words:
`YYYY-MM-DD_HHmmss.png` from local wall-clock time, zero-padded.  Compared
against generateFilename to settle the filename-convention claim. -/
def specTimestampName (t : DateTime) : String :=
  toString t.year ++ "-" ++ twoDigits t.month ++ "-" ++ twoDigits t.day ++ "_" ++
    twoDigits t.hour ++ twoDigits t.minute ++ twoDigits t.second ++ ".png"

/-- The shared shape of every mutating operation of the component: a
history capture immediately followed by a buffer mutation (stroke start,
clear, cut and extension all begin with captureSnapshot). -/
def opStep (m : List Row → List Row) (ws : WS) : WS :=
  let ws1 := captureSnapshot ws
  { ws1 with rows := m ws1.rows }

/-- A sequence of mutating operations applied in order. -/
def opIter (ms : List (List Row → List Row)) (ws : WS) : WS :=
  ms.foldl (fun s m => opStep m s) ws

/-- The snapshots an operation sequence pushes, in push order: each
operation snapshots the buffer as it stands before its own mutation. -/
def pushedSnaps : List (List Row → List Row) → List Row → List CanvasSnapshot
  | [], _ => []
  | m :: ms, rs => mkSnapshot rs :: pushedSnaps ms (m rs)

/-! Support lemmas about the buffer primitives. -/

theorem getImageData_zero (h : Nat) (rows : List Row) :
    getImageData 0 h rows = rows.take h := rfl

theorem writeRows_full (dst src : List Row) (h : src.length = dst.length) :
    writeRows dst 0 src = src := by
  unfold writeRows
  simp [h]

theorem mkSnapshot_imageData (rs : List Row) : (mkSnapshot rs).imageData = rs := by
  unfold mkSnapshot
  simp [getImageData_zero, List.take_length]

theorem mkSnapshot_height (rs : List Row) : (mkSnapshot rs).height = rs.length := rfl

theorem pushHistory_getLast? (s : CanvasSnapshot) (h : List CanvasSnapshot) :
    (pushHistory s h).getLast? = some s := by
  unfold pushHistory
  split
  · rename_i hlen
    have h1 : 1 ≤ h.length := by
      simp [MAX_HISTORY] at hlen
      omega
    rw [List.drop_append_of_le_length h1, List.getLast?_concat]
  · exact List.getLast?_concat h

theorem scheduleAutoSave_rows (ws : WS) : (scheduleAutoSave ws).rows = ws.rows := by
  unfold scheduleAutoSave
  split <;> rfl

theorem scheduleAutoSave_history (ws : WS) :
    (scheduleAutoSave ws).history = ws.history := by
  unfold scheduleAutoSave
  split <;> rfl

theorem scheduleAutoSave_isExtending (ws : WS) :
    (scheduleAutoSave ws).isExtending = ws.isExtending := by
  unfold scheduleAutoSave
  split <;> rfl

theorem scheduleAutoSave_savedFiles (ws : WS) :
    (scheduleAutoSave ws).savedFiles = ws.savedFiles := by
  unfold scheduleAutoSave
  split <;> rfl

theorem scheduleAutoSave_zoom (ws : WS) : (scheduleAutoSave ws).zoom = ws.zoom := by
  unfold scheduleAutoSave
  split <;> rfl

theorem scheduleAutoSave_canvasOffsetY (ws : WS) :
    (scheduleAutoSave ws).canvasOffsetY = ws.canvasOffsetY := by
  unfold scheduleAutoSave
  split <;> rfl

theorem restoreSnapshot_rows (rs : List Row) (ws : WS) :
    (restoreSnapshot (mkSnapshot rs) ws).rows = rs := by
  unfold restoreSnapshot
  split
  · rename_i hne
    show writeRows (resizeCanvas (mkSnapshot rs).height ws.rows) 0 (mkSnapshot rs).imageData = rs
    rw [mkSnapshot_imageData, mkSnapshot_height]
    exact writeRows_full _ _ (by simp [resizeCanvas])
  · rename_i heq
    rw [not_ne_iff] at heq
    show writeRows ws.rows 0 (mkSnapshot rs).imageData = rs
    rw [mkSnapshot_imageData]
    refine writeRows_full _ _ ?_
    have h2 : ws.rows.length = rs.length := heq
    exact h2.symm

theorem handleUndo_rows (ws : WS) (rs : List Row) (h0 : List CanvasSnapshot)
    (hh : ws.history = pushHistory (mkSnapshot rs) h0) : (handleUndo ws).rows = rs := by
  unfold handleUndo
  rw [hh, pushHistory_getLast?]
  simp only
  rw [scheduleAutoSave_rows]
  exact restoreSnapshot_rows rs _

theorem handleUndo_history (ws : WS) : (handleUndo ws).history = ws.history.dropLast := by
  unfold handleUndo
  cases hg : ws.history.getLast? with
  | none =>
      have : ws.history = [] := by
        cases hl : ws.history with
        | nil => rfl
        | cons a t => rw [hl] at hg; simp [List.getLast?_eq_getLast] at hg
      simp [this]
  | some s =>
      simp only
      rw [scheduleAutoSave_history]
      unfold restoreSnapshot
      split <;> rfl

/-! Behavior of the extension on its success path. -/

theorem writeRows_extend (bg : Color) (rs : List Row) :
    writeRows (List.replicate (rs.length + CANVAS_EXTEND_HEIGHT) (bgRow bg)) 0 rs
      = rs ++ List.replicate CANVAS_EXTEND_HEIGHT (bgRow bg) := by
  unfold writeRows
  rw [List.take_zero, List.nil_append, List.length_replicate, Nat.sub_zero,
    List.take_of_length_le (by omega), Nat.zero_add, List.drop_replicate]
  congr 2
  omega

theorem extendCanvas_spec (bg : Color) (ws : WS) (hg : ws.isExtending = false) :
    (extendCanvas bg true true true ws).rows
        = ws.rows ++ List.replicate CANVAS_EXTEND_HEIGHT (bgRow bg)
      ∧ (extendCanvas bg true true true ws).history
          = pushHistory (mkSnapshot ws.rows) ws.history
      ∧ (extendCanvas bg true true true ws).isExtending = false
      ∧ (extendCanvas bg true true true ws).savedFiles = ws.savedFiles := by
  have hrows : (captureSnapshot ws).rows = ws.rows := rfl
  have hheight : (captureSnapshot ws).canvasHeight = ws.rows.length := rfl
  unfold extendCanvas
  rw [hg]
  simp only [Bool.false_eq_true, if_false, Bool.not_true, Bool.false_eq_true,
    Bool.not_false, if_true]
  rw [scheduleAutoSave_rows, scheduleAutoSave_history, scheduleAutoSave_isExtending,
    scheduleAutoSave_savedFiles]
  simp only
  rw [hheight, hrows, writeRows_extend]
  simp
  exact ⟨rfl, rfl⟩

theorem getImageDataPadded_length (h : Nat) (rows : List Row) :
    (getImageDataPadded h rows).length = h := by
  unfold getImageDataPadded
  rw [List.length_append, List.length_take, List.length_replicate]
  omega

theorem writeRows_length_zero (dst src : List Row) :
    (writeRows dst 0 src).length = dst.length := by
  unfold writeRows
  rw [List.length_append, List.length_append, List.length_take, List.length_take,
    List.length_drop]
  omega

theorem writeRows_fill (bg : Color) (n : Nat) (rs : List Row)
    (h : rs.length ≤ n) :
    writeRows (List.replicate n (bgRow bg)) 0 rs
      = rs ++ List.replicate (n - rs.length) (bgRow bg) := by
  unfold writeRows
  rw [List.take_zero, List.nil_append, List.length_replicate, Nat.sub_zero,
    List.take_of_length_le h, Nat.zero_add, List.drop_replicate]

theorem restoreSnapshot_rows_len (s : CanvasSnapshot) (ws : WS)
    (hs : s.imageData.length = s.height) :
    (restoreSnapshot s ws).rows = s.imageData := by
  unfold restoreSnapshot
  split
  · exact writeRows_full _ _ (by rw [hs]; simp [resizeCanvas])
  · rename_i heq
    rw [not_ne_iff] at heq
    refine writeRows_full _ _ ?_
    rw [hs]
    have h2 : ws.rows.length = s.height := heq
    exact h2.symm

theorem extendCanvasStale_guard_noop (bg : Color) (staleH : Nat)
    (canvasOk ctxOk imgOk : Bool) (ws : WS) (hset : ws.isExtending = true) :
    extendCanvasStale bg staleH canvasOk ctxOk imgOk ws = ws := by
  unfold extendCanvasStale
  rw [hset]
  rfl

theorem extendCanvasStale_savedFiles (bg : Color) (staleH : Nat)
    (canvasOk ctxOk imgOk : Bool) (ws : WS) :
    (extendCanvasStale bg staleH canvasOk ctxOk imgOk ws).savedFiles
      = ws.savedFiles := by
  unfold extendCanvasStale
  split
  · rfl
  · cases canvasOk with
    | false => rfl
    | true =>
        cases ctxOk with
        | false => rfl
        | true =>
            cases imgOk with
            | false => rfl
            | true =>
                show (scheduleAutoSave _).savedFiles = ws.savedFiles
                rw [scheduleAutoSave_savedFiles]

theorem extendCanvasStale_spec (bg : Color) (staleH : Nat) (ws : WS)
    (hg : ws.isExtending = false)
    (hle : ws.canvasHeight ≤ staleH + CANVAS_EXTEND_HEIGHT) :
    (extendCanvasStale bg staleH true true true ws).rows
        = ws.rows ++ List.replicate (staleH + CANVAS_EXTEND_HEIGHT - ws.canvasHeight)
            (bgRow bg)
      ∧ (extendCanvasStale bg staleH true true true ws).history
          = pushHistory (CanvasSnapshot.mk (getImageDataPadded staleH ws.rows) staleH)
              ws.history
      ∧ (extendCanvasStale bg staleH true true true ws).isExtending = false
      ∧ (extendCanvasStale bg staleH true true true ws).savedFiles = ws.savedFiles := by
  unfold extendCanvasStale
  rw [hg]
  simp only [Bool.false_eq_true, if_false, Bool.not_true, Bool.not_false, if_true]
  rw [scheduleAutoSave_rows, scheduleAutoSave_history, scheduleAutoSave_isExtending,
    scheduleAutoSave_savedFiles]
  simp only
  rw [writeRows_fill bg _ _ hle]
  simp [WS.canvasHeight]

theorem handleUndo_extendCanvasStale (bg : Color) (staleH : Nat) (ws : WS)
    (hg : ws.isExtending = false)
    (hle : ws.canvasHeight ≤ staleH + CANVAS_EXTEND_HEIGHT) :
    (handleUndo (extendCanvasStale bg staleH true true true ws)).rows
      = getImageDataPadded staleH ws.rows := by
  obtain ⟨-, hhist, -, -⟩ := extendCanvasStale_spec bg staleH ws hg hle
  unfold handleUndo
  rw [hhist, pushHistory_getLast?]
  simp only
  rw [scheduleAutoSave_rows]
  exact restoreSnapshot_rows_len _ _ (getImageDataPadded_length staleH ws.rows)

/-- C5: for every buffer of height H with no extension already in flight,
after the extend operation completes on its success path the buffer height
is H + CANVAS_EXTEND_HEIGHT, rows [0, H) are pixel-identical to their prior
content, and rows [H, H + CANVAS_EXTEND_HEIGHT) are filled with the current
background color. -/
theorem extension_preserves_content (bg : Color) (ws : WS)
    (hg : ws.isExtending = false) :
    (extendCanvas bg true true true ws).canvasHeight
        = ws.canvasHeight + CANVAS_EXTEND_HEIGHT
      ∧ (extendCanvas bg true true true ws).rows.take ws.canvasHeight = ws.rows
      ∧ (extendCanvas bg true true true ws).rows.drop ws.canvasHeight
          = List.replicate CANVAS_EXTEND_HEIGHT (bgRow bg) := by
  obtain ⟨hrows, -, -, -⟩ := extendCanvas_spec bg ws hg
  rw [WS.canvasHeight, WS.canvasHeight, hrows]
  refine ⟨by simp, ?_, ?_⟩
  · rw [List.take_append_of_le_length (le_refl _), List.take_length]
  · rw [List.drop_append_of_le_length (le_refl _), List.drop_length, List.nil_append]

set_option maxRecDepth 4000 in
/-- Witness for C5 at a concrete two-row buffer. -/
theorem extension_preserves_content_witness :
    (extendCanvas 7 true true true
        { rows := [[1], [2]], history := [], canUndo := false, zoom := 1,
          canvasOffsetY := 0, hoveredScissorY := none, isDrawing := false,
          isExtending := false, needsExtension := false, pendingAutosave := false,
          hasDir := true, savedFiles := [] }).canvasHeight = 2 + CANVAS_EXTEND_HEIGHT
      ∧ (extendCanvas 7 true true true
        { rows := [[1], [2]], history := [], canUndo := false, zoom := 1,
          canvasOffsetY := 0, hoveredScissorY := none, isDrawing := false,
          isExtending := false, needsExtension := false, pendingAutosave := false,
          hasDir := true, savedFiles := [] }).rows.take 2 = [[1], [2]] := by
  have h := extension_preserves_content 7
    { rows := [[1], [2]], history := [], canUndo := false, zoom := 1,
      canvasOffsetY := 0, hoveredScissorY := none, isDrawing := false,
      isExtending := false, needsExtension := false, pendingAutosave := false,
      hasDir := true, savedFiles := [] } rfl
  exact ⟨h.1, h.2.1⟩

theorem extendCanvas_guard_noop (bg : Color) (canvasOk ctxOk imgOk : Bool)
    (ws : WS) (hset : ws.isExtending = true) :
    extendCanvas bg canvasOk ctxOk imgOk ws = ws := by
  unfold extendCanvas
  rw [hset]
  rfl

theorem extendCanvas_guard_clears (bg : Color) (canvasOk ctxOk imgOk : Bool)
    (ws : WS) (hclear : ws.isExtending = false) :
    (extendCanvas bg canvasOk ctxOk imgOk ws).isExtending = false := by
  unfold extendCanvas
  rw [hclear]
  cases canvasOk with
  | false => rfl
  | true =>
      cases ctxOk with
      | false => rfl
      | true =>
          cases imgOk with
          | false => rfl
          | true =>
              show (scheduleAutoSave _).isExtending = false
              rw [scheduleAutoSave_isExtending]

/-- C7: a second extension trigger while the guard flag is set is a pure
no-op (neither queued nor an error), and every execution path of the
extend operation — success, missing canvas, missing context, failed image
rehydration — ends with the guard flag reset. -/
theorem extension_guard (bg : Color) (canvasOk ctxOk imgOk : Bool) (ws : WS) :
    (ws.isExtending = true → extendCanvas bg canvasOk ctxOk imgOk ws = ws)
      ∧ (ws.isExtending = false →
          (extendCanvas bg canvasOk ctxOk imgOk ws).isExtending = false) :=
  ⟨extendCanvas_guard_noop bg canvasOk ctxOk imgOk ws,
   extendCanvas_guard_clears bg canvasOk ctxOk imgOk ws⟩

/-- Witness for C7: the guard makes a re-entrant trigger a no-op on a
concrete guarded state, and a concrete unguarded run ends with the guard
clear. -/
theorem extension_guard_witness :
    (extendCanvas 7 true true true
        { rows := [[1]], history := [], canUndo := false, zoom := 1,
          canvasOffsetY := 0, hoveredScissorY := none, isDrawing := false,
          isExtending := true, needsExtension := false, pendingAutosave := false,
          hasDir := true, savedFiles := [] }
      = { rows := [[1]], history := [], canUndo := false, zoom := 1,
          canvasOffsetY := 0, hoveredScissorY := none, isDrawing := false,
          isExtending := true, needsExtension := false, pendingAutosave := false,
          hasDir := true, savedFiles := [] })
      ∧ (extendCanvas 7 true false true
        { rows := [[1]], history := [], canUndo := false, zoom := 1,
          canvasOffsetY := 0, hoveredScissorY := none, isDrawing := false,
          isExtending := false, needsExtension := false, pendingAutosave := false,
          hasDir := true, savedFiles := [] }).isExtending = false :=
  ⟨(extension_guard 7 true true true _).1 rfl,
   (extension_guard 7 true false true _).2 rfl⟩

theorem scheduleAutoSave_hasDir (ws : WS) : (scheduleAutoSave ws).hasDir = ws.hasDir := by
  unfold scheduleAutoSave
  split <;> rfl

theorem extendCanvas_savedFiles (bg : Color) (canvasOk ctxOk imgOk : Bool) (ws : WS) :
    (extendCanvas bg canvasOk ctxOk imgOk ws).savedFiles = ws.savedFiles := by
  unfold extendCanvas
  split
  · rfl
  · cases canvasOk with
    | false => rfl
    | true =>
        cases ctxOk with
        | false => rfl
        | true =>
            cases imgOk with
            | false => rfl
            | true =>
                show (scheduleAutoSave _).savedFiles = ws.savedFiles
                rw [scheduleAutoSave_savedFiles]
                rfl

theorem cutMidState_rows (t : DateTime) (y : Nat) (ws : WS) :
    (cutMidState t y ws).rows = ws.rows := rfl

theorem cutMidState_savedFiles (t : DateTime) (y : Nat) (ws : WS) :
    (cutMidState t y ws).savedFiles
      = writeNamedImage (generateFilename t) (ws.rows.take y) ws.savedFiles := rfl

theorem cutMidState_isExtending (t : DateTime) (y : Nat) (ws : WS) :
    (cutMidState t y ws).isExtending = ws.isExtending := rfl

theorem cutMidState_history (t : DateTime) (y : Nat) (ws : WS) :
    (cutMidState t y ws).history = pushHistory (mkSnapshot ws.rows) ws.history := rfl

theorem cutCommit_rows (bg : Color) (y : Nat) (ws : WS) (hy : y ≤ ws.canvasHeight) :
    (cutCommit bg y ws).rows = ws.rows.drop y := by
  unfold cutCommit getImageData
  rw [scheduleAutoSave_rows]
  show writeRows (List.replicate (ws.canvasHeight - y) (bgRow bg)) 0
      ((ws.rows.drop y).take (ws.canvasHeight - y)) = ws.rows.drop y
  have h1 : (ws.rows.drop y).length = ws.canvasHeight - y := by
    rw [List.length_drop]
    rfl
  rw [List.take_of_length_le (le_of_eq h1)]
  exact writeRows_full _ _ (by rw [h1, List.length_replicate])

theorem cutCommit_canvasHeight (bg : Color) (y : Nat) (ws : WS)
    (hy : y ≤ ws.canvasHeight) :
    (cutCommit bg y ws).canvasHeight = ws.canvasHeight - y := by
  rw [WS.canvasHeight, cutCommit_rows bg y ws hy, List.length_drop]
  rfl

theorem cutCommit_savedFiles (bg : Color) (y : Nat) (ws : WS) :
    (cutCommit bg y ws).savedFiles = ws.savedFiles := by
  unfold cutCommit
  rw [scheduleAutoSave_savedFiles]

theorem cutCommit_isExtending (bg : Color) (y : Nat) (ws : WS) :
    (cutCommit bg y ws).isExtending = ws.isExtending := by
  unfold cutCommit
  rw [scheduleAutoSave_isExtending]

theorem cutCommit_history (bg : Color) (y : Nat) (ws : WS) :
    (cutCommit bg y ws).history = ws.history := by
  unfold cutCommit
  rw [scheduleAutoSave_history]

theorem lookupImage_write (name : String) (c : List Row) (s : Sink) :
    lookupImage name (writeNamedImage name c s) = some c := by
  unfold lookupImage writeNamedImage
  simp [List.find?]

theorem handleScissorClick_success (bg : Color) (t : DateTime)
    (canvasOk ctxOk imgOk : Bool) (y : Nat) (ws : WS) (hd : ws.hasDir = true) :
    handleScissorClick bg t true true canvasOk ctxOk imgOk y ws
      = (if (cutCommit bg y (cutMidState t y ws)).canvasHeight < MIN_VIABLE_HEIGHT
         then extendCanvasStale bg ws.canvasHeight canvasOk ctxOk imgOk
                (cutCommit bg y (cutMidState t y ws))
         else cutCommit bg y (cutMidState t y ws)) := by
  unfold handleScissorClick
  rw [hd]
  rfl

/-- C1: for every buffer and every boundary y in the margin range, after a
cut whose persistence write succeeds, the sink holds rows [0, y) of the
pre-cut buffer (an image of height y) under the timestamped name, and once
the cut commits, the live buffer has height H - y with content equal to
rows [y, H) of the pre-cut buffer; that retained content is still rows
[0, H - y) of the settled buffer even after the optional post-cut
auto-extension runs. -/
theorem cut_conservation (bg : Color) (t : DateTime) (y : Nat) (ws : WS)
    (hd : ws.hasDir = true) (hy1 : MIN_MARGIN ≤ y)
    (hy2 : y + MIN_MARGIN ≤ ws.canvasHeight) :
    lookupImage (generateFilename t)
        (handleScissorClick bg t true true true true true y ws).savedFiles
      = some (ws.rows.take y)
    ∧ (ws.rows.take y).length = y
    ∧ (cutCommit bg y (cutMidState t y ws)).canvasHeight = ws.canvasHeight - y
    ∧ (cutCommit bg y (cutMidState t y ws)).rows = ws.rows.drop y
    ∧ (handleScissorClick bg t true true true true true y ws).rows.take
        (ws.canvasHeight - y) = ws.rows.drop y := by
  have hm : MIN_MARGIN = 50 := rfl
  have hyH : y ≤ ws.canvasHeight := by omega
  have hmidH : (cutMidState t y ws).canvasHeight = ws.canvasHeight := rfl
  have hcrows : (cutCommit bg y (cutMidState t y ws)).rows = ws.rows.drop y := by
    rw [cutCommit_rows bg y _ (by rw [hmidH]; exact hyH), cutMidState_rows]
  have hclen : (cutCommit bg y (cutMidState t y ws)).rows.length
      = ws.canvasHeight - y := by
    rw [hcrows, List.length_drop]
    rfl
  have hcH : (cutCommit bg y (cutMidState t y ws)).canvasHeight
      = ws.canvasHeight - y := hclen
  refine ⟨?_, ?_, hcH, hcrows, ?_⟩
  · rw [handleScissorClick_success bg t true true true y ws hd]
    split
    · rw [extendCanvasStale_savedFiles, cutCommit_savedFiles, cutMidState_savedFiles]
      exact lookupImage_write _ _ _
    · rw [cutCommit_savedFiles, cutMidState_savedFiles]
      exact lookupImage_write _ _ _
  · rw [List.length_take]
    exact min_eq_left hyH
  · rw [handleScissorClick_success bg t true true true y ws hd]
    split
    · cases hguard : (cutCommit bg y (cutMidState t y ws)).isExtending with
      | true =>
          rw [extendCanvasStale_guard_noop bg ws.canvasHeight true true true _ hguard,
            ← hclen, hcrows, List.take_length]
      | false =>
          have hle3 : (cutCommit bg y (cutMidState t y ws)).canvasHeight
              ≤ ws.canvasHeight + CANVAS_EXTEND_HEIGHT := by
            rw [hcH]
            omega
          obtain ⟨hrows2, -, -, -⟩ :=
            extendCanvasStale_spec bg ws.canvasHeight _ hguard hle3
          rw [hrows2, List.take_append_of_le_length (le_of_eq hclen.symm), ← hclen,
            hcrows, List.take_length]
    · rw [← hclen, hcrows, List.take_length]

/-- Witness for C1 at a concrete 120-row buffer cut at y = 60. -/
theorem cut_conservation_witness :
    MIN_MARGIN ≤ 60
    ∧ 60 + MIN_MARGIN ≤ (WS.mk (List.replicate 120 ([] : Row)) [] false 1 0 none
        false false false false true []).canvasHeight
    ∧ lookupImage (generateFilename (DateTime.mk 2026 1 2 3 4 5))
        (handleScissorClick 0 (DateTime.mk 2026 1 2 3 4 5) true true true true true 60
          (WS.mk (List.replicate 120 ([] : Row)) [] false 1 0 none
            false false false false true [])).savedFiles
      = some ((List.replicate 120 ([] : Row)).take 60) := by
  have h := cut_conservation 0 (DateTime.mk 2026 1 2 3 4 5) 60
    (WS.mk (List.replicate 120 ([] : Row)) [] false 1 0 none
      false false false false true []) rfl (by decide) (by decide)
  exact ⟨by decide, by decide, h.1⟩

/-- C4 (divergence): cutting a buffer of height 900 at y = 200 leaves a
700-row remainder at commit, below MIN_VIABLE_HEIGHT, so the deferred
auto-extension fires — but it runs the stale extendCanvas closure captured
before the cut, whose canvasHeight is the pre-cut 900, so the program
settles at 900 + CANVAS_EXTEND_HEIGHT = 1300, not the claimed
700 + CANVAS_EXTEND_HEIGHT = 1100. -/
theorem post_cut_stale_extension (bg : Color) (t : DateTime) (ws : WS)
    (hd : ws.hasDir = true) (hH : ws.canvasHeight = 900)
    (hg : ws.isExtending = false) :
    (cutCommit bg 200 (cutMidState t 200 ws)).canvasHeight = 700
    ∧ 700 < MIN_VIABLE_HEIGHT
    ∧ (handleScissorClick bg t true true true true true 200 ws).canvasHeight = 1300
    ∧ 700 + CANVAS_EXTEND_HEIGHT = 1100
    ∧ (1300 : Nat) ≠ 1100 := by
  have hmidH : (cutMidState t 200 ws).canvasHeight = ws.canvasHeight := rfl
  have hcH : (cutCommit bg 200 (cutMidState t 200 ws)).canvasHeight = 700 := by
    rw [cutCommit_canvasHeight bg 200 _ (by rw [hmidH, hH]; omega), hmidH, hH]
  have hguard : (cutCommit bg 200 (cutMidState t 200 ws)).isExtending = false := by
    rw [cutCommit_isExtending, cutMidState_isExtending, hg]
  refine ⟨hcH, by decide, ?_, rfl, by decide⟩
  rw [handleScissorClick_success bg t true true true 200 ws hd,
    if_pos (by rw [hcH]; decide)]
  have hle : (cutCommit bg 200 (cutMidState t 200 ws)).canvasHeight
      ≤ ws.canvasHeight + CANVAS_EXTEND_HEIGHT := by
    rw [hcH, hH]
    decide
  obtain ⟨hrows2, -, -, -⟩ := extendCanvasStale_spec bg ws.canvasHeight _ hguard hle
  rw [WS.canvasHeight, hrows2, List.length_append, List.length_replicate]
  have h700 : (cutCommit bg 200 (cutMidState t 200 ws)).rows.length = 700 := hcH
  have hch700 : (cutCommit bg 200 (cutMidState t 200 ws)).canvasHeight = 700 := hcH
  rw [h700, hch700, hH]
  decide

set_option maxRecDepth 40000 in
/-- Witness for C4 at a concrete 900-row buffer: the program settles at
height 1300. -/
theorem post_cut_stale_extension_witness :
    (handleScissorClick 0 (DateTime.mk 2026 1 2 3 4 5) true true true true true 200
        (WS.mk (List.replicate 900 ([] : Row)) [] false 1 0 none
          false false false false true [])).canvasHeight = 1300 := by
  have h := post_cut_stale_extension 0 (DateTime.mk 2026 1 2 3 4 5)
    (WS.mk (List.replicate 900 ([] : Row)) [] false 1 0 none
      false false false false true []) rfl (by simp [WS.canvasHeight]) rfl
  exact h.2.2.1

/-- C2: when the persistence write of a cut fails (or the blob encoding
fails), the live buffer keeps its exact pre-cut rows and height, the sink
gains no filename, and the cut schedules no autosave. -/
theorem cut_atomic_under_failure (bg : Color) (t : DateTime) (blobOk : Bool)
    (canvasOk ctxOk imgOk : Bool) (y : Nat) (ws : WS) :
    (handleScissorClick bg t blobOk false canvasOk ctxOk imgOk y ws).rows = ws.rows
      ∧ (handleScissorClick bg t blobOk false canvasOk ctxOk imgOk y ws).canvasHeight
          = ws.canvasHeight
      ∧ (handleScissorClick bg t blobOk false canvasOk ctxOk imgOk y ws).savedFiles
          = ws.savedFiles
      ∧ (handleScissorClick bg t blobOk false canvasOk ctxOk imgOk y ws).pendingAutosave
          = ws.pendingAutosave := by
  unfold handleScissorClick
  cases hd : ws.hasDir with
  | false => simp
  | true =>
      cases blobOk with
      | false => simp [captureSnapshot, WS.canvasHeight]
      | true => simp [captureSnapshot, WS.canvasHeight]

/-! The scissor-rail clamp and the absence of engine-side validation. -/

theorem round_mono_rat (a b : ℚ) (hab : a ≤ b) : round a ≤ round b := by
  rw [round_eq, round_eq]
  exact Int.floor_le_floor (by linarith)

theorem clampScissorY_bounds (h : Nat) (q : ℚ) (hh : 2 * MIN_MARGIN ≤ h) :
    MIN_MARGIN ≤ clampScissorY h q ∧ clampScissorY h q + MIN_MARGIN ≤ h := by
  have hm : MIN_MARGIN = 50 := rfl
  unfold clampScissorY
  have h1 : ((MIN_MARGIN : ℕ) : ℚ)
      ≤ max ((MIN_MARGIN : ℕ) : ℚ) (min ((h : ℚ) - (MIN_MARGIN : ℚ)) q) :=
    le_max_left _ _
  have h2 : max ((MIN_MARGIN : ℕ) : ℚ) (min ((h : ℚ) - (MIN_MARGIN : ℚ)) q)
      ≤ (h : ℚ) - (MIN_MARGIN : ℚ) := by
    apply max_le
    · have h100 : ((2 * MIN_MARGIN : ℕ) : ℚ) ≤ (h : ℚ) := by exact_mod_cast hh
      rw [hm] at h100 ⊢
      push_cast at h100 ⊢
      linarith
    · exact min_le_left _ _
  have hlow : ((MIN_MARGIN : ℕ) : ℤ)
      ≤ round (max ((MIN_MARGIN : ℕ) : ℚ) (min ((h : ℚ) - (MIN_MARGIN : ℚ)) q)) := by
    have hr := round_mono_rat _ _ h1
    rwa [round_natCast] at hr
  have hhigh : round (max ((MIN_MARGIN : ℕ) : ℚ) (min ((h : ℚ) - (MIN_MARGIN : ℚ)) q))
      ≤ ((h - MIN_MARGIN : ℕ) : ℤ) := by
    have hcast : (h : ℚ) - (MIN_MARGIN : ℚ) = ((h - MIN_MARGIN : ℕ) : ℚ) := by
      rw [Nat.cast_sub (by omega)]
    have hr := round_mono_rat _ _ h2
    calc round (max ((MIN_MARGIN : ℕ) : ℚ) (min ((h : ℚ) - (MIN_MARGIN : ℚ)) q))
        ≤ round ((h : ℚ) - (MIN_MARGIN : ℚ)) := hr
      _ = ((h - MIN_MARGIN : ℕ) : ℤ) := by rw [hcast, round_natCast]
  constructor
  · exact Int.toNat_le_toNat hlow
  · have h3 := Int.toNat_le.mpr hhigh
    omega

/-- Counterexample to C6: the engine, given the out-of-range boundary
y = 10 (below MIN_MARGIN) on a 120-row buffer, does not reject the request
before any mutation — it persists the cut image to the sink. -/
theorem engine_no_boundary_check_counterexample :
    10 < MIN_MARGIN
    ∧ (handleScissorClick 0 (DateTime.mk 2026 1 2 3 4 5) true true true true true 10
        (WS.mk (List.replicate 120 ([] : Row)) [] false 1 0 none
          false false false false true [])).savedFiles
      ≠ (WS.mk (List.replicate 120 ([] : Row)) [] false 1 0 none
          false false false false true []).savedFiles := by
  refine ⟨by decide, ?_⟩
  rw [handleScissorClick_success _ _ _ _ _ _ _ rfl]
  split
  · rw [extendCanvasStale_savedFiles, cutCommit_savedFiles, cutMidState_savedFiles]
    simp [writeNamedImage]
  · rw [cutCommit_savedFiles, cutMidState_savedFiles]
    simp [writeNamedImage]

/-- C6 amended: the cut engine itself performs no boundary validation and
raises no InvalidBoundary error; it processes any boundary y, persisting
rows [0, y) to the sink.  Out-of-range boundaries are prevented only by
the UI layer, whose scissor-rail clamp keeps every hover position inside
[MIN_MARGIN, H - MIN_MARGIN]. -/
theorem boundary_clamped_by_ui_only (h : Nat) (q : ℚ) (hh : 2 * MIN_MARGIN ≤ h) :
    (MIN_MARGIN ≤ clampScissorY h q ∧ clampScissorY h q + MIN_MARGIN ≤ h)
    ∧ (∀ (bg : Color) (t : DateTime) (canvasOk ctxOk imgOk : Bool) (y : Nat) (ws : WS),
        ws.hasDir = true →
        (handleScissorClick bg t true true canvasOk ctxOk imgOk y ws).savedFiles
          = writeNamedImage (generateFilename t) (ws.rows.take y) ws.savedFiles) := by
  refine ⟨clampScissorY_bounds h q hh, ?_⟩
  intro bg t canvasOk ctxOk imgOk y ws hd
  rw [handleScissorClick_success bg t canvasOk ctxOk imgOk y ws hd]
  split
  · rw [extendCanvasStale_savedFiles, cutCommit_savedFiles, cutMidState_savedFiles]
  · rw [cutCommit_savedFiles, cutMidState_savedFiles]

/-- Witness for the amended C6 at a 120-row buffer, hover row 10 and the
out-of-range engine boundary 10. -/
theorem boundary_clamped_by_ui_only_witness :
    (MIN_MARGIN ≤ clampScissorY 120 10 ∧ clampScissorY 120 10 + MIN_MARGIN ≤ 120)
    ∧ (handleScissorClick 0 (DateTime.mk 2026 1 2 3 4 5) true true true true true 10
        (WS.mk (List.replicate 150 ([] : Row)) [] false 1 0 none
          false false false false true [])).savedFiles
      = writeNamedImage (generateFilename (DateTime.mk 2026 1 2 3 4 5))
          ((List.replicate 150 ([] : Row)).take 10) [] := by
  have h := boundary_clamped_by_ui_only 120 10 (by decide)
  exact ⟨h.1, h.2 0 (DateTime.mk 2026 1 2 3 4 5) true true true 10
    (WS.mk (List.replicate 150 ([] : Row)) [] false 1 0 none
      false false false false true []) rfl⟩

/-! The stroke-finalize decision (C8). -/

theorem scheduleAutoSave_pending_of_hasDir (ws : WS) (hd : ws.hasDir = true) :
    (scheduleAutoSave ws).pendingAutosave = true := by
  unfold scheduleAutoSave
  rw [if_pos hd]

theorem extendCanvas_pendingAutosave (bg : Color) (ws : WS)
    (hg : ws.isExtending = false) (hd : ws.hasDir = true) :
    (extendCanvas bg true true true ws).pendingAutosave = true := by
  unfold extendCanvas
  rw [hg]
  simp only [Bool.false_eq_true, if_false, Bool.not_true, Bool.not_false, if_true]
  exact scheduleAutoSave_pending_of_hasDir _ hd

/-- C8: pointer-up, pointer-leave and pointer-cancel all converge to the
same finalize routine; when the most recent stroke raised the bottom-margin
flag (a pointer row within EXTEND_MARGIN of the bottom edge, as the
pointer-move conjunct characterizes), finalize triggers the extension
instead of autosave — on the success path the extension arms the autosave
itself — and otherwise finalize schedules the autosave directly. -/
theorem stroke_finalize_policy (bg : Color) (canvasOk ctxOk imgOk : Bool) :
    handlePointerLeave = handlePointerUp
    ∧ handlePointerCancel = handlePointerUp
    ∧ (∀ ws : WS, ws.needsExtension = true →
        handlePointerUp bg canvasOk ctxOk imgOk ws
          = extendCanvas bg canvasOk ctxOk imgOk
              { ws with isDrawing := false, needsExtension := false })
    ∧ (∀ ws : WS, ws.needsExtension = false →
        handlePointerUp bg canvasOk ctxOk imgOk ws
          = scheduleAutoSave { ws with isDrawing := false })
    ∧ (∀ (ws : WS) (rasterize : List Row → List Row) (q : ℚ), ws.isDrawing = true →
        (handlePointerMove rasterize q ws).needsExtension
          = (if (ws.canvasHeight : ℚ) - (EXTEND_MARGIN : ℚ) < q then true
             else ws.needsExtension))
    ∧ (∀ ws : WS, ws.needsExtension = true → ws.isExtending = false →
        ws.hasDir = true →
        (handlePointerUp bg true true true ws).pendingAutosave = true) := by
  refine ⟨rfl, rfl, ?_, ?_, ?_, ?_⟩
  · intro ws hflag
    unfold handlePointerUp finalizeStroke
    simp only [hflag, if_true]
  · intro ws hflag
    unfold handlePointerUp finalizeStroke
    simp only [hflag, Bool.false_eq_true, if_false]
  · intro ws rasterize q hdraw
    unfold handlePointerMove
    rw [hdraw]
    simp only [Bool.not_true, Bool.false_eq_true, if_false]
  · intro ws hflag hguard hd
    unfold handlePointerUp finalizeStroke
    simp only [hflag, if_true]
    exact extendCanvas_pendingAutosave bg _ hguard hd

/-- Witness for C8: concrete finalizations with the bottom-margin flag set
and clear, and a concrete pointer-move crossing the margin. -/
theorem stroke_finalize_policy_witness :
    (handlePointerUp 0 true true true
        (WS.mk [[1]] [] false 1 0 none true false true false true [])
      = extendCanvas 0 true true true
          (WS.mk [[1]] [] false 1 0 none false false false false true []))
    ∧ (handlePointerUp 0 true true true
        (WS.mk [[1]] [] false 1 0 none true false false false true [])
      = scheduleAutoSave
          (WS.mk [[1]] [] false 1 0 none false false false false true []))
    ∧ (handlePointerMove id 900
        (WS.mk [[1]] [] false 1 0 none true false false false true [])).needsExtension
      = (if ((WS.mk [[1]] [] false 1 0 none true false false false true
            []).canvasHeight : ℚ) - (EXTEND_MARGIN : ℚ) < 900 then true else false)
    ∧ (handlePointerUp 0 true true true
        (WS.mk [[1]] [] false 1 0 none true false true false true
          [])).pendingAutosave = true := by
  refine ⟨?_, ?_, ?_, ?_⟩
  · exact (stroke_finalize_policy 0 true true true).2.2.1 _ rfl
  · exact (stroke_finalize_policy 0 true true true).2.2.2.1 _ rfl
  · exact (stroke_finalize_policy 0 true true true).2.2.2.2.1 _ id 900 rfl
  · exact (stroke_finalize_policy 0 true true true).2.2.2.2.2 _ rfl rfl rfl

/-! Viewport preservation (C9). -/

theorem restoreSnapshot_zoom (s : CanvasSnapshot) (ws : WS) :
    (restoreSnapshot s ws).zoom = ws.zoom := by
  unfold restoreSnapshot
  split <;> rfl

theorem restoreSnapshot_canvasOffsetY (s : CanvasSnapshot) (ws : WS) :
    (restoreSnapshot s ws).canvasOffsetY = ws.canvasOffsetY := by
  unfold restoreSnapshot
  split <;> rfl

theorem handleUndo_zoom (ws : WS) : (handleUndo ws).zoom = ws.zoom := by
  unfold handleUndo
  cases ws.history.getLast? with
  | none => rfl
  | some s =>
      simp only
      rw [scheduleAutoSave_zoom, restoreSnapshot_zoom]

theorem handleUndo_canvasOffsetY (ws : WS) :
    (handleUndo ws).canvasOffsetY = ws.canvasOffsetY := by
  unfold handleUndo
  cases ws.history.getLast? with
  | none => rfl
  | some s =>
      simp only
      rw [scheduleAutoSave_canvasOffsetY, restoreSnapshot_canvasOffsetY]

theorem extendCanvas_zoom (bg : Color) (canvasOk ctxOk imgOk : Bool) (ws : WS) :
    (extendCanvas bg canvasOk ctxOk imgOk ws).zoom = ws.zoom := by
  unfold extendCanvas
  split
  · rfl
  · cases canvasOk with
    | false => rfl
    | true =>
        cases ctxOk with
        | false => rfl
        | true =>
            cases imgOk with
            | false => rfl
            | true =>
                show (scheduleAutoSave _).zoom = ws.zoom
                rw [scheduleAutoSave_zoom]
                rfl

theorem extendCanvas_canvasOffsetY (bg : Color) (canvasOk ctxOk imgOk : Bool)
    (ws : WS) :
    (extendCanvas bg canvasOk ctxOk imgOk ws).canvasOffsetY = ws.canvasOffsetY := by
  unfold extendCanvas
  split
  · rfl
  · cases canvasOk with
    | false => rfl
    | true =>
        cases ctxOk with
        | false => rfl
        | true =>
            cases imgOk with
            | false => rfl
            | true =>
                show (scheduleAutoSave _).canvasOffsetY = ws.canvasOffsetY
                rw [scheduleAutoSave_canvasOffsetY]
                rfl

/-- Counterexample to C9: a directory-handle change on a workspace zoomed
to 200 percent leaves the zoom at 200 percent and the vertical offset at 5
— the viewport state is not reset to its defaults (zoom 1, offset 0). -/
theorem viewport_not_reset_counterexample :
    (directoryChangeEffect true
        (WS.mk [[1]] [] false 2 5 none false false false true true [])).zoom = 2
    ∧ (2 : ℚ) ≠ 1
    ∧ (directoryChangeEffect true
        (WS.mk [[1]] [] false 2 5 none false false false true true
          [])).canvasOffsetY = 5
    ∧ (5 : Nat) ≠ 0 := by
  exact ⟨rfl, by norm_num, rfl, by decide⟩

/-- C9 amended: when the working buffer identity changes, the pending
autosave is cancelled and the undo history is cleared, but the viewport
state (zoom and vertical offset) is left unchanged — it is not reset to its
defaults; ordinary edits (stroke handlers, clear, undo, extension) also
leave the viewport state unchanged. -/
theorem viewport_on_directory_change (loadOk : Bool) (ws : WS) :
    (directoryChangeEffect loadOk ws).zoom = ws.zoom
    ∧ (directoryChangeEffect loadOk ws).canvasOffsetY = ws.canvasOffsetY
    ∧ (directoryChangeEffect loadOk ws).history = []
    ∧ (directoryChangeEffect loadOk ws).pendingAutosave = false
    ∧ ((handlePointerDown ws).zoom = ws.zoom
        ∧ (handlePointerDown ws).canvasOffsetY = ws.canvasOffsetY)
    ∧ (∀ (rasterize : List Row → List Row) (q : ℚ),
        (handlePointerMove rasterize q ws).zoom = ws.zoom
        ∧ (handlePointerMove rasterize q ws).canvasOffsetY = ws.canvasOffsetY)
    ∧ (∀ (bg : Color) (canvasOk ctxOk imgOk : Bool),
        (handlePointerUp bg canvasOk ctxOk imgOk ws).zoom = ws.zoom
        ∧ (handlePointerUp bg canvasOk ctxOk imgOk ws).canvasOffsetY
            = ws.canvasOffsetY)
    ∧ (∀ (bg : Color) (confirmed : Bool),
        (handleClear bg confirmed ws).zoom = ws.zoom
        ∧ (handleClear bg confirmed ws).canvasOffsetY = ws.canvasOffsetY)
    ∧ ((handleUndo ws).zoom = ws.zoom
        ∧ (handleUndo ws).canvasOffsetY = ws.canvasOffsetY)
    ∧ (∀ (bg : Color) (canvasOk ctxOk imgOk : Bool),
        (extendCanvas bg canvasOk ctxOk imgOk ws).zoom = ws.zoom
        ∧ (extendCanvas bg canvasOk ctxOk imgOk ws).canvasOffsetY
            = ws.canvasOffsetY) := by
  refine ⟨?_, ?_, ?_, ?_, ⟨rfl, rfl⟩, ?_, ?_, ?_,
    ⟨handleUndo_zoom ws, handleUndo_canvasOffsetY ws⟩, ?_⟩
  · unfold directoryChangeEffect
    dsimp only
    cases (WS.hasDir ws)
    · rfl
    · cases lookupImage CURRENT_CANVAS_FILENAME ws.savedFiles with
      | none => rfl
      | some img => cases loadOk <;> rfl
  · unfold directoryChangeEffect
    dsimp only
    cases (WS.hasDir ws)
    · rfl
    · cases lookupImage CURRENT_CANVAS_FILENAME ws.savedFiles with
      | none => rfl
      | some img => cases loadOk <;> rfl
  · unfold directoryChangeEffect
    dsimp only
    cases (WS.hasDir ws)
    · rfl
    · cases lookupImage CURRENT_CANVAS_FILENAME ws.savedFiles with
      | none => rfl
      | some img => cases loadOk <;> rfl
  · unfold directoryChangeEffect
    dsimp only
    cases (WS.hasDir ws)
    · rfl
    · cases lookupImage CURRENT_CANVAS_FILENAME ws.savedFiles with
      | none => rfl
      | some img => cases loadOk <;> rfl
  · intro rasterize q
    unfold handlePointerMove
    cases (WS.isDrawing ws)
    · exact ⟨rfl, rfl⟩
    · exact ⟨rfl, rfl⟩
  · intro bg canvasOk ctxOk imgOk
    unfold handlePointerUp finalizeStroke
    dsimp only
    cases (WS.needsExtension ws)
    · rw [if_neg (by simp)]
      exact ⟨scheduleAutoSave_zoom _, scheduleAutoSave_canvasOffsetY _⟩
    · rw [if_pos rfl]
      exact ⟨extendCanvas_zoom bg canvasOk ctxOk imgOk _,
        extendCanvas_canvasOffsetY bg canvasOk ctxOk imgOk _⟩
  · intro bg confirmed
    unfold handleClear
    cases confirmed with
    | false => exact ⟨rfl, rfl⟩
    | true =>
        simp only [Bool.not_true, Bool.false_eq_true, if_false]
        constructor
        · rw [scheduleAutoSave_zoom]
          rfl
        · rw [scheduleAutoSave_canvasOffsetY]
          rfl
  · intro bg canvasOk ctxOk imgOk
    exact ⟨extendCanvas_zoom bg canvasOk ctxOk imgOk ws,
      extendCanvas_canvasOffsetY bg canvasOk ctxOk imgOk ws⟩

/-! The filename convention (C10). -/

theorem padStart2_toString (n : Nat) (hn : n < 100) :
    padStart2 (toString n) = twoDigits n := by
  revert hn
  revert n
  decide

/-- C10: every cut filename is computed from local wall-clock time in the
exact zero-padded YYYY-MM-DD_HHmmss.png format; filenames are a function of
the second-granularity time components alone, so two cuts committed in the
same wall-clock second collide on the identical name, the second write to
that name overwrites the first, and the name is distinct from the fixed
working-canvas slot name. -/
theorem filename_convention (t : DateTime)
    (hmo : t.month < 100) (hda : t.day < 100) (hho : t.hour < 100)
    (hmi : t.minute < 100) (hse : t.second < 100)
    (hyr : (toString t.year).length = 4) :
    generateFilename t = specTimestampName t
    ∧ (∀ t2 : DateTime, t2.year = t.year → t2.month = t.month → t2.day = t.day →
        t2.hour = t.hour → t2.minute = t.minute → t2.second = t.second →
        generateFilename t2 = generateFilename t)
    ∧ (∀ (c1 c2 : List Row) (s : Sink),
        lookupImage (generateFilename t)
          (writeNamedImage (generateFilename t) c2
            (writeNamedImage (generateFilename t) c1 s)) = some c2)
    ∧ generateFilename t ≠ CURRENT_CANVAS_FILENAME := by
  have hEq : generateFilename t = specTimestampName t := by
    unfold generateFilename specTimestampName
    rw [padStart2_toString _ hmo, padStart2_toString _ hda,
      padStart2_toString _ hho, padStart2_toString _ hmi,
      padStart2_toString _ hse]
  refine ⟨hEq, ?_, ?_, ?_⟩
  · intro t2 h1 h2 h3 h4 h5 h6
    unfold generateFilename
    rw [h1, h2, h3, h4, h5, h6]
  · intro c1 c2 s
    exact lookupImage_write _ _ _
  · intro hcon
    have hlen : (generateFilename t).length = 21 := by
      rw [hEq]
      unfold specTimestampName twoDigits
      simp [String.length_append, hyr]
      rfl
    rw [hcon] at hlen
    exact absurd hlen (by decide)

/-- Witness for C10 at the concrete time 2026-01-02 03:04:05. -/
theorem filename_convention_witness :
    generateFilename (DateTime.mk 2026 1 2 3 4 5)
      = specTimestampName (DateTime.mk 2026 1 2 3 4 5)
    ∧ generateFilename (DateTime.mk 2026 1 2 3 4 5) ≠ CURRENT_CANVAS_FILENAME := by
  have h := filename_convention (DateTime.mk 2026 1 2 3 4 5)
    (by decide) (by decide) (by decide) (by decide) (by decide) (by decide)
  exact ⟨h.1, h.2.2.2⟩

/-! History mechanics for the undo round-trip (C3). -/

theorem pushHistory_ne_nil (s : CanvasSnapshot) (h : List CanvasSnapshot) :
    pushHistory s h ≠ [] := by
  unfold pushHistory
  split
  · rename_i hc
    apply List.ne_nil_of_length_pos
    rw [List.length_drop, List.length_append]
    simp only [MAX_HISTORY, List.length_cons, List.length_nil, List.length_append] at hc ⊢
    omega
  · exact fun hcon => by simp at hcon

theorem getLast?_drop_one (l : List CanvasSnapshot) (hl : 2 ≤ l.length) :
    (l.drop 1).getLast? = l.getLast? := by
  cases l with
  | nil => simp at hl
  | cons a t =>
      cases t with
      | nil => simp at hl
      | cons b u =>
          show (b :: u).getLast? = (a :: b :: u).getLast?
          exact List.getLast?_cons_cons.symm

theorem dropLast_pushHistory_getLast? (s : CanvasSnapshot)
    (h : List CanvasSnapshot) (hne : h ≠ []) :
    ((pushHistory s h).dropLast).getLast? = h.getLast? := by
  unfold pushHistory
  split
  · rename_i hc
    have h1 : 1 ≤ h.length := List.length_pos.mpr hne
    rw [List.drop_append_of_le_length h1, List.dropLast_concat]
    apply getLast?_drop_one
    simp only [MAX_HISTORY, List.length_append, List.length_cons,
      List.length_nil] at hc
    omega
  · rw [List.dropLast_concat]

theorem handleUndo_rows_of_getLast? (ws : WS) (rs : List Row)
    (hh : ws.history.getLast? = some (mkSnapshot rs)) : (handleUndo ws).rows = rs := by
  unfold handleUndo
  rw [hh]
  simp only
  rw [scheduleAutoSave_rows]
  exact restoreSnapshot_rows rs _

theorem opStep_rows (m : List Row → List Row) (ws : WS) :
    (opStep m ws).rows = m ws.rows := rfl

theorem opStep_history (m : List Row → List Row) (ws : WS) :
    (opStep m ws).history = pushHistory (mkSnapshot ws.rows) ws.history := rfl

theorem pushedSnaps_length (ms : List (List Row → List Row)) :
    ∀ rs : List Row, (pushedSnaps ms rs).length = ms.length := by
  induction ms with
  | nil => intro rs; rfl
  | cons m ms ih => intro rs; simp [pushedSnaps, ih]

theorem opIter_history (ms : List (List Row → List Row)) :
    ∀ ws : WS, ws.history.length ≤ MAX_HISTORY →
      (opIter ms ws).history
        = (ws.history ++ pushedSnaps ms ws.rows).drop
            (ws.history.length + ms.length - MAX_HISTORY) := by
  induction ms with
  | nil =>
      intro ws hle
      simp only [opIter, List.foldl_nil, pushedSnaps, List.length_nil,
        List.append_nil, Nat.add_zero]
      rw [Nat.sub_eq_zero_of_le hle, List.drop_zero]
  | cons m ms ih =>
      intro ws hle
      have hstep : (opStep m ws).history = pushHistory (mkSnapshot ws.rows) ws.history :=
        rfl
      have hrows : (opStep m ws).rows = m ws.rows := rfl
      have hiter : opIter (m :: ms) ws = opIter ms (opStep m ws) := rfl
      rw [hiter]
      by_cases hc : ws.history.length + 1 ≤ MAX_HISTORY
      · have hpush : pushHistory (mkSnapshot ws.rows) ws.history
            = ws.history ++ [mkSnapshot ws.rows] := by
          unfold pushHistory
          rw [if_neg (by
            rw [List.length_append]
            simp only [MAX_HISTORY, List.length_cons, List.length_nil] at hc ⊢
            omega)]
        have hlen : (opStep m ws).history.length ≤ MAX_HISTORY := by
          rw [hstep, hpush, List.length_append]
          simpa using hc
        rw [ih (opStep m ws) hlen, hstep, hrows, hpush]
        have hA : (ws.history ++ [mkSnapshot ws.rows]) ++ pushedSnaps ms (m ws.rows)
            = ws.history ++ pushedSnaps (m :: ms) ws.rows := by
          rw [List.append_assoc]
          rfl
        have hij : (ws.history ++ [mkSnapshot ws.rows]).length + ms.length - MAX_HISTORY
            = ws.history.length + (m :: ms).length - MAX_HISTORY := by
          rw [List.length_append]
          simp only [List.length_cons, List.length_nil]
          omega
        rw [hA, hij]
      · have hlen20 : ws.history.length = MAX_HISTORY := by omega
        have hpush : pushHistory (mkSnapshot ws.rows) ws.history
            = (ws.history ++ [mkSnapshot ws.rows]).drop 1 := by
          unfold pushHistory
          rw [if_pos (by
            rw [List.length_append]
            simp only [MAX_HISTORY, List.length_cons, List.length_nil] at hlen20 ⊢
            omega)]
        have hplen : (opStep m ws).history.length ≤ MAX_HISTORY := by
          rw [hstep, hpush, List.length_drop, List.length_append]
          simp only [List.length_cons, List.length_nil]
          omega
        rw [ih (opStep m ws) hplen, hstep, hrows, hpush]
        have hXlen : ((ws.history ++ [mkSnapshot ws.rows]).drop 1).length
            = MAX_HISTORY := by
          rw [List.length_drop, List.length_append]
          simp only [List.length_cons, List.length_nil]
          omega
        rw [hXlen]
        have hcond : 1 ≤ (ws.history ++ [mkSnapshot ws.rows]).length := by
          rw [List.length_append]
          simp only [List.length_cons, List.length_nil]
          omega
        rw [← List.drop_append_of_le_length hcond, List.drop_drop]
        have hA : (ws.history ++ [mkSnapshot ws.rows]) ++ pushedSnaps ms (m ws.rows)
            = ws.history ++ pushedSnaps (m :: ms) ws.rows := by
          rw [List.append_assoc]
          rfl
        have hij : 1 + (MAX_HISTORY + ms.length - MAX_HISTORY)
            = ws.history.length + (m :: ms).length - MAX_HISTORY := by
          simp only [List.length_cons]
          omega
        rw [hA, hij]

theorem handleClear_history (bg : Color) (ws : WS) :
    (handleClear bg true ws).history = pushHistory (mkSnapshot ws.rows) ws.history := by
  show (scheduleAutoSave _).history = _
  rw [scheduleAutoSave_history]
  rfl

theorem strokeMoves_invariant (moves : List ((List Row → List Row) × ℚ)) :
    ∀ w : WS, w.needsExtension = false →
      (∀ p ∈ moves, p.2 ≤ (w.canvasHeight : ℚ) - (EXTEND_MARGIN : ℚ)) →
      (∀ p ∈ moves, ∀ rs : List Row, (p.1 rs).length = rs.length) →
      (moves.foldl (fun s p => handlePointerMove p.1 p.2 s) w).history = w.history
      ∧ (moves.foldl (fun s p => handlePointerMove p.1 p.2 s) w).needsExtension = false
      ∧ (moves.foldl (fun s p => handlePointerMove p.1 p.2 s) w).canvasHeight
          = w.canvasHeight := by
  induction moves with
  | nil =>
      intro w h1 _ _
      exact ⟨rfl, h1, rfl⟩
  | cons p ps ih =>
      intro w h1 h2 h3
      simp only [List.foldl_cons]
      have hq : p.2 ≤ (w.canvasHeight : ℚ) - (EXTEND_MARGIN : ℚ) := h2 p (by simp)
      have hstep : (handlePointerMove p.1 p.2 w).history = w.history
          ∧ (handlePointerMove p.1 p.2 w).needsExtension = false
          ∧ (handlePointerMove p.1 p.2 w).canvasHeight = w.canvasHeight := by
        unfold handlePointerMove
        cases hd : w.isDrawing with
        | false => exact ⟨rfl, h1, rfl⟩
        | true =>
            refine ⟨rfl, ?_, ?_⟩
            · show (if (w.canvasHeight : ℚ) - (EXTEND_MARGIN : ℚ) < p.2 then true
                  else w.needsExtension) = false
              rw [if_neg (not_lt.mpr hq), h1]
            · show (p.1 w.rows).length = w.rows.length
              exact h3 p (by simp) w.rows
      obtain ⟨e1, e2, e3⟩ := hstep
      obtain ⟨f1, f2, f3⟩ := ih (handlePointerMove p.1 p.2 w) e2
        (fun q hq2 => by rw [e3]; exact h2 q (by simp [hq2]))
        (fun q hq2 rs => h3 q (by simp [hq2]) rs)
      exact ⟨by rw [f1, e1], f2, by rw [f3, e3]⟩

theorem cutCommit_canvasHeight_eq (bg : Color) (y : Nat) (ws : WS) :
    (cutCommit bg y ws).canvasHeight = ws.canvasHeight - y := by
  show (cutCommit bg y ws).rows.length = _
  unfold cutCommit
  rw [scheduleAutoSave_rows]
  show (writeRows (List.replicate (ws.canvasHeight - y) (bgRow bg)) 0 _).length = _
  rw [writeRows_length_zero, List.length_replicate]

set_option maxRecDepth 40000 in
/-- Counterexample to C3: the post-cut automatic extension — a mutating
operation the program performs on the 700-row remainder of a 900-tall cut —
undone immediately leaves a buffer of height 900, not the pre-operation
700: the stale closure snapshots getImageData(0, 0, W, 900) over the
700-row canvas, a transparent-padded capture recorded at the pre-cut
height, so undo restores that instead of the pre-operation state. -/
theorem undo_round_trip_counterexample :
    (WS.mk (List.replicate 700 ([] : Row)) [] false 1 0 none
        false false false false true []).canvasHeight = 700
    ∧ (handleUndo (extendCanvasStale 0 900 true true true
        (WS.mk (List.replicate 700 ([] : Row)) [] false 1 0 none
          false false false false true []))).canvasHeight = 900
    ∧ (900 : Nat) ≠ 700 := by
  refine ⟨by simp [WS.canvasHeight], ?_, by decide⟩
  show (handleUndo _).rows.length = 900
  rw [handleUndo_extendCanvasStale 0 900 _ rfl (by
    simp only [WS.canvasHeight, List.length_replicate, CANVAS_EXTEND_HEIGHT]
    omega)]
  exact getImageDataPadded_length 900 _

/-- C3 amended: clear, a fresh extension (button or stroke end), a stroke
session, and a cut without auto-extension each push a snapshot of their
pre-state and are reverted by an immediate undo, restoring the
pre-operation pixel rows and height; the post-cut automatic extension,
which runs through a stale closure over the pre-cut height, instead pushes
a transparent-padded snapshot of the pre-cut height, so its immediate undo
restores that padded buffer of height staleH rather than its pre-operation
state — two undos after such a cut still restore the pre-cut buffer; a
sequence of operations starting from an empty history retains the
snapshots of the last MAX_HISTORY operations only, so after
MAX_HISTORY + 1 operations the history holds exactly MAX_HISTORY snapshots
and the oldest (the pre-state of the first operation) has been evicted and
is no longer recoverable. -/
theorem undo_round_trip (bg : Color) (t : DateTime) :
    (∀ ws : WS, (handleUndo (handleClear bg true ws)).rows = ws.rows
        ∧ (handleUndo (handleClear bg true ws)).canvasHeight = ws.canvasHeight)
    ∧ (∀ ws : WS, ws.isExtending = false →
        (handleUndo (extendCanvas bg true true true ws)).rows = ws.rows)
    ∧ (∀ (y : Nat) (ws : WS), ws.hasDir = true →
        MIN_VIABLE_HEIGHT ≤ (cutCommit bg y (cutMidState t y ws)).canvasHeight →
        (handleUndo (handleScissorClick bg t true true true true true y ws)).rows
          = ws.rows)
    ∧ (∀ (y : Nat) (ws : WS), ws.hasDir = true →
        (cutCommit bg y (cutMidState t y ws)).canvasHeight < MIN_VIABLE_HEIGHT →
        ws.isExtending = false →
        (handleUndo (handleUndo
            (handleScissorClick bg t true true true true true y ws))).rows = ws.rows)
    ∧ (∀ (staleH : Nat) (ws : WS), ws.isExtending = false →
        ws.canvasHeight ≤ staleH + CANVAS_EXTEND_HEIGHT →
        (handleUndo (extendCanvasStale bg staleH true true true ws)).rows
            = getImageDataPadded staleH ws.rows
        ∧ (handleUndo (extendCanvasStale bg staleH true true true ws)).canvasHeight
            = staleH)
    ∧ (∀ (ws : WS) (moves : List ((List Row → List Row) × ℚ))
          (canvasOk ctxOk imgOk : Bool),
        ws.needsExtension = false →
        (∀ p ∈ moves, p.2 ≤ (ws.canvasHeight : ℚ) - (EXTEND_MARGIN : ℚ)) →
        (∀ p ∈ moves, ∀ rs : List Row, (p.1 rs).length = rs.length) →
        (handleUndo (handlePointerUp bg canvasOk ctxOk imgOk
            (moves.foldl (fun s p => handlePointerMove p.1 p.2 s)
              (handlePointerDown ws)))).rows = ws.rows)
    ∧ (∀ (ws : WS) (ms : List (List Row → List Row)), ws.history = [] →
        (opIter ms ws).history
            = (pushedSnaps ms ws.rows).drop (ms.length - MAX_HISTORY)
        ∧ (opIter ms ws).history.length = min ms.length MAX_HISTORY)
    ∧ (∀ (ws : WS) (ms : List (List Row → List Row)), ws.history = [] →
        ms.length = MAX_HISTORY + 1 →
        (opIter ms ws).history = (pushedSnaps ms ws.rows).drop 1
        ∧ (opIter ms ws).history.length = MAX_HISTORY) := by
  have hbase : ∀ (ws : WS) (ms : List (List Row → List Row)), ws.history = [] →
      (opIter ms ws).history
        = (pushedSnaps ms ws.rows).drop (ms.length - MAX_HISTORY) := by
    intro ws ms h0
    have h := opIter_history ms ws (by rw [h0]; simp [MAX_HISTORY])
    rw [h0] at h
    simpa using h
  refine ⟨?_, ?_, ?_, ?_, ?_, ?_, ?_, ?_⟩
  · intro ws
    have hh := handleClear_history bg ws
    refine ⟨handleUndo_rows _ _ _ hh, ?_⟩
    show (handleUndo _).rows.length = ws.rows.length
    rw [handleUndo_rows _ _ _ hh]
  · intro ws hg
    obtain ⟨-, hh, -, -⟩ := extendCanvas_spec bg ws hg
    exact handleUndo_rows _ _ _ hh
  · intro y ws hd hbig
    rw [handleScissorClick_success bg t true true true y ws hd,
      if_neg (not_lt.mpr hbig)]
    apply handleUndo_rows _ ws.rows ws.history
    rw [cutCommit_history, cutMidState_history]
  · intro y ws hd hsmall hg
    rw [handleScissorClick_success bg t true true true y ws hd, if_pos hsmall]
    have hg3 : (cutCommit bg y (cutMidState t y ws)).isExtending = false := by
      rw [cutCommit_isExtending, cutMidState_isExtending, hg]
    have hle4 : (cutCommit bg y (cutMidState t y ws)).canvasHeight
        ≤ ws.canvasHeight + CANVAS_EXTEND_HEIGHT := by
      rw [cutCommit_canvasHeight_eq]
      have hmid : (cutMidState t y ws).canvasHeight = ws.canvasHeight := rfl
      rw [hmid]
      omega
    obtain ⟨-, hhist, -, -⟩ := extendCanvasStale_spec bg ws.canvasHeight _ hg3 hle4
    have hh1 : (cutCommit bg y (cutMidState t y ws)).history
        = pushHistory (mkSnapshot ws.rows) ws.history := by
      rw [cutCommit_history, cutMidState_history]
    apply handleUndo_rows_of_getLast? _ ws.rows
    rw [handleUndo_history, hhist, hh1,
      dropLast_pushHistory_getLast? _ _ (pushHistory_ne_nil _ _),
      pushHistory_getLast?]
  · intro staleH ws hg hle
    refine ⟨handleUndo_extendCanvasStale bg staleH ws hg hle, ?_⟩
    show (handleUndo _).rows.length = staleH
    rw [handleUndo_extendCanvasStale bg staleH ws hg hle]
    exact getImageDataPadded_length staleH ws.rows
  · intro ws moves canvasOk ctxOk imgOk hflag hq hlen
    have hw0flag : (handlePointerDown ws).needsExtension = ws.needsExtension := rfl
    obtain ⟨f1, f2, f3⟩ := strokeMoves_invariant moves (handlePointerDown ws)
      (by rw [hw0flag, hflag]) hq hlen
    have hfin : (handlePointerUp bg canvasOk ctxOk imgOk
        (moves.foldl (fun s p => handlePointerMove p.1 p.2 s)
          (handlePointerDown ws))).history
        = (moves.foldl (fun s p => handlePointerMove p.1 p.2 s)
            (handlePointerDown ws)).history := by
      unfold handlePointerUp finalizeStroke
      dsimp only
      rw [if_neg (by rw [show ({ moves.foldl (fun s p => handlePointerMove p.1 p.2 s)
          (handlePointerDown ws) with isDrawing := false } : WS).needsExtension
          = (moves.foldl (fun s p => handlePointerMove p.1 p.2 s)
              (handlePointerDown ws)).needsExtension from rfl, f2]; simp)]
      rw [scheduleAutoSave_history]
    apply handleUndo_rows _ ws.rows ws.history
    rw [hfin, f1]
    rfl
  · intro ws ms h0
    have h1 := hbase ws ms h0
    refine ⟨h1, ?_⟩
    rw [h1, List.length_drop, pushedSnaps_length]
    simp [MAX_HISTORY]
    omega
  · intro ws ms h0 hlen21
    have h1 := hbase ws ms h0
    have hd1 : ms.length - MAX_HISTORY = 1 := by
      rw [hlen21]
      simp
    constructor
    · rw [h1, hd1]
    · rw [h1, hd1, List.length_drop, pushedSnaps_length, hlen21]
      omega

/-- Witness for C3: concrete round-trips through clear, extension and an
empty stroke session on a two-row buffer, the stale post-cut extension's
undo landing at the stale height, and the eviction of the oldest snapshot
after 21 operations. -/
theorem undo_round_trip_witness :
    (handleUndo (handleClear 7 true
        (WS.mk [[1], [2]] [] false 1 0 none false false false false true
          []))).rows = [[1], [2]]
    ∧ (handleUndo (extendCanvas 7 true true true
        (WS.mk [[1], [2]] [] false 1 0 none false false false false true
          []))).rows = [[1], [2]]
    ∧ (handleUndo (handlePointerUp 7 true true true
        (List.foldl (fun s p => handlePointerMove p.1 p.2 s)
          (handlePointerDown
            (WS.mk [[1], [2]] [] false 1 0 none false false false false true []))
          ([] : List ((List Row → List Row) × ℚ))))).rows = [[1], [2]]
    ∧ (handleUndo (extendCanvasStale 7 900 true true true
        (WS.mk [[1], [2]] [] false 1 0 none false false false false true
          []))).canvasHeight = 900
    ∧ (opIter (List.replicate 21 id)
        (WS.mk [[1], [2]] [] false 1 0 none false false false false true
          [])).history
      = (pushedSnaps (List.replicate 21 id) [[1], [2]]).drop 1 := by
  have h := undo_round_trip 7 (DateTime.mk 2026 1 2 3 4 5)
  refine ⟨(h.1 _).1, h.2.1 _ rfl, ?_, ?_, ?_⟩
  · exact h.2.2.2.2.2.1 _ [] true true true rfl (by simp) (by simp)
  · exact (h.2.2.2.2.1 900 _ rfl (by
      simp only [WS.canvasHeight, List.length_cons, List.length_nil,
        CANVAS_EXTEND_HEIGHT]
      omega)).2
  · exact (h.2.2.2.2.2.2.2 _ (List.replicate 21 id) rfl (by simp [MAX_HISTORY])).1

end ScrapPaper
